import Mathlib

/-!
Verification of the encoder stack of `sockeye/encoder.py`: the factored
`Embedding` layer and the `TransformerEncoder`.

Tensors are shallowly embedded as nested lists of rationals
(batch × sequence × feature).  Integer id tensors are nested lists of
naturals.  Stochastic dropout is modelled by an explicit mask argument
`rng : Nat → Nat → Nat → Bool` deciding, per coordinate, whether the
entry is dropped; the module applies it only when the configured
probability is positive, exactly as `encoder.py` only constructs a
`Dropout` module in that case.  External submodules of the transformer
(positional embeddings, encoder blocks, final process block) are opaque
function parameters, since their code lives outside `encoder.py`.
-/

namespace Sockeye

/-- Feature vector: innermost axis of a float tensor. -/
abbrev Vec : Type := List ℚ

/-- Matrix: two trailing axes, e.g. an embedding table (vocab × width). -/
abbrev Mat : Type := List Vec

/-- Rank-3 float tensor: batch × sequence × feature. -/
abbrev Tensor3 : Type := List Mat

/-- Elementwise addition of feature vectors (`torch` `+` on the last axis). -/
def vecAdd (a b : Vec) : Vec := List.zipWith (fun x y => x + y) a b

/-- Elementwise addition on matrices. -/
def matAdd (a b : Mat) : Mat := List.zipWith vecAdd a b

/-- Elementwise addition on 3-d tensors, `embedded + sum_factor_embed`. -/
def tenAdd (a b : Tensor3) : Tensor3 := List.zipWith matAdd a b

/-- Models `pt.cat([a, b], dim=2)`: concatenation along the feature axis. -/
def tenCat2 (a b : Tensor3) : Tensor3 :=
  List.zipWith (List.zipWith (fun x y => x ++ y)) a b

/-- Scalar multiple of every entry of a 3-d tensor. -/
def tenScale (c : ℚ) (t : Tensor3) : Tensor3 :=
  t.map (List.map (List.map (fun x => c * x)))

/-- Sum of a nonempty family of 3-d tensors, head plus the rest. -/
def tenSum (h : Tensor3) (rest : List Tensor3) : Tensor3 := rest.foldl tenAdd h

/-- Models `pt.mean(pt.stack([h] + rest, dim=0), dim=0)`: elementwise mean of a
nonempty family of equally-shaped tensors. -/
def meanStack (h : Tensor3) (rest : List Tensor3) : Tensor3 :=
  tenScale (1 / (1 + rest.length : ℚ)) (tenSum h rest)

/-- Training-mode dropout with keep-scaling 1/(1-p): entry (i,j,k) is zeroed
when the random mask selects it, otherwise rescaled. -/
def applyDropout (p : ℚ) (rng : Nat → Nat → Nat → Bool) (t : Tensor3) : Tensor3 :=
  t.mapIdx (fun i m => m.mapIdx (fun j v => v.mapIdx (fun k x =>
    if rng i j k then 0 else x / (1 - p))))

/-- Line 121 / line 194 of `encoder.py`: a dropout module is constructed only
when the configured probability is strictly positive, otherwise `None`. -/
def dropoutModule (p : ℚ) : Option ℚ := if p > 0 then some p else none

/-- Models `if self.dropout is not None: x = self.dropout(x)`. -/
def applyDropoutOpt (p : ℚ) (rng : Nat → Nat → Nat → Bool) (t : Tensor3) : Tensor3 :=
  match dropoutModule p with
  | some dp => applyDropout dp rng t
  | none => t

namespace C

/-- Modelled from the spec: `sockeye/constants.py` is not under `src/`; the
spec restricts combination-mode strings to the closed set
{sum, average, concatenate}. -/
def FACTORS_COMBINE_SUM : String := "sum"

/-- Modelled from the spec: the average combination-mode string. -/
def FACTORS_COMBINE_AVERAGE : String := "average"

/-- Modelled from the spec: the concatenate combination-mode string. -/
def FACTORS_COMBINE_CONCAT : String := "concat"

/-- The closed set of valid combination-mode strings. -/
def FACTORS_COMBINE_CHOICES : List String :=
  [FACTORS_COMBINE_SUM, FACTORS_COMBINE_AVERAGE, FACTORS_COMBINE_CONCAT]

end C

/-- Models `FactorConfig` (encoder.py, lines 64-69). -/
structure FactorConfig where
  vocab_size : Nat
  num_embed : Nat
  combine : String
  share_embedding : Bool
deriving DecidableEq

/-- Models `EmbeddingConfig` (encoder.py, lines 72-79); the derived field
`num_factors` is the function `EmbeddingConfig.num_factors` below. -/
structure EmbeddingConfig where
  vocab_size : Nat
  num_embed : Nat
  dropout : ℚ
  factor_configs : Option (List FactorConfig)
  allow_sparse_grad : Bool
deriving DecidableEq

/-- Models `__post_init__` (lines 81-84): one primary factor plus the configured
factor streams. -/
def EmbeddingConfig.num_factors (cfg : EmbeddingConfig) : Nat :=
  1 + (match cfg.factor_configs with
       | none => 0
       | some fcs => fcs.length)

/-- Learned parameters of an `Embedding` module: the primary table plus one
freshly constructed table per factor config (the table built at line 116;
it is ignored for factors that share the primary table). -/
structure EmbeddingParams where
  embedding : Mat
  factor_tables : List Mat

/-- Embedding lookup `table(ids)`: row `id` of the table for every id. -/
def embLookup (table : Mat) (ids : List (List Nat)) : Tensor3 :=
  ids.map (fun row => row.map (fun tid => table.getD tid []))

/-- Models `data[:, :, i]`: select factor channel `i` of the input id tensor. -/
def factorSlice (data : List (List (List Nat))) (i : Nat) : List (List Nat) :=
  data.map (fun row => row.map (fun v => v.getD i 0))

/-- Models `__init__` lines 111-118: the table used for each factor is the primary
table when `share_embedding` is set, otherwise the factor's own table. -/
def Embedding.factor_embeds (cfg : EmbeddingConfig) (p : EmbeddingParams) : List Mat :=
  (List.zip (cfg.factor_configs.getD []) p.factor_tables).map
    (fun ft => if ft.1.share_embedding then p.embedding else ft.2)

/-- Models `__init__` line 119: the per-factor combination-mode strings. -/
def Embedding.factor_combinations (cfg : EmbeddingConfig) : List String :=
  (cfg.factor_configs.getD []).map FactorConfig.combine

/-- Loop body data of `forward` lines 131-134: for the k-th factor config
(channel k+1 of the input), its embedded tensor paired with its
combination-mode string. -/
def Embedding.factor_embedded (cfg : EmbeddingConfig) (p : EmbeddingParams)
    (data : List (List (List Nat))) : List (Tensor3 × String) :=
  (List.zip (Embedding.factor_embeds cfg p) (Embedding.factor_combinations cfg)).mapIdx
    (fun k tc => (embLookup tc.1 (factorSlice data (k + 1)), tc.2))

/-- The bucketing loop of `forward` lines 128-142: distribute the embedded
factors over the (average, concat, sum) buckets in iteration order, raising
`ValueError` at the first unknown combination string. -/
def bucketFactors : List (Tensor3 × String) →
    Except String (List Tensor3 × List Tensor3 × List Tensor3)
  | [] => Except.ok ([], [], [])
  | (fe, comb) :: rest =>
    if comb = C.FACTORS_COMBINE_CONCAT then
      (bucketFactors rest).map (fun b => (b.1, fe :: b.2.1, b.2.2))
    else if comb = C.FACTORS_COMBINE_SUM then
      (bucketFactors rest).map (fun b => (b.1, b.2.1, fe :: b.2.2))
    else if comb = C.FACTORS_COMBINE_AVERAGE then
      (bucketFactors rest).map (fun b => (fe :: b.1, b.2.1, b.2.2))
    else Except.error ("Unknown combine value for factors: " ++ comb)

/-- Models `Embedding.forward` (lines 123-155): look up the primary embedding, and
when factors are present bucket them, average the average bucket together
with the primary, add the sum bucket, concatenate the concat bucket, and
finally apply dropout when a dropout module was constructed. -/
def Embedding.forward (cfg : EmbeddingConfig) (p : EmbeddingParams)
    (rng : Nat → Nat → Nat → Bool) (data : List (List (List Nat))) :
    Except String Tensor3 :=
  let primary_data := factorSlice data 0
  let embedded := embLookup p.embedding primary_data
  let combined : Except String Tensor3 :=
    if cfg.num_factors > 1 then
      (bucketFactors (Embedding.factor_embedded cfg p data)).map (fun b =>
        let embedded := if b.1 ≠ [] then meanStack embedded b.1 else embedded
        let embedded := b.2.2.foldl tenAdd embedded
        let embedded := if b.2.1 ≠ [] then b.2.1.foldl tenCat2 embedded else embedded
        embedded)
    else Except.ok embedded
  combined.map (applyDropoutOpt cfg.dropout rng)

/-- Models `Embedding.get_num_hidden` (lines 157-161). -/
def Embedding.get_num_hidden (cfg : EmbeddingConfig) : Nat := cfg.num_embed

/-- Base-class `Encoder.get_encoded_seq_len` (lines 51-55): identity. -/
def Encoder.get_encoded_seq_len (seq_len : Int) : Int := seq_len

/-- Base-class `Encoder.get_max_seq_len` (lines 57-61): no restriction. -/
def Encoder.get_max_seq_len : Option Nat := none

/-- Subclass `Embedding` does not override `get_encoded_seq_len`. -/
def Embedding.get_encoded_seq_len : Int → Int := Encoder.get_encoded_seq_len

/-- Subclass `Embedding` does not override `get_max_seq_len`. -/
def Embedding.get_max_seq_len (_cfg : EmbeddingConfig) : Option Nat :=
  Encoder.get_max_seq_len

/-- Record `TransformerConfig` lives in `sockeye/transformer.py` (not under `src/`);
this record holds exactly the fields `encoder.py` reads from it. -/
structure TransformerConfig where
  model_size : Nat
  attention_heads : Nat
  num_layers : Nat
  dropout_prepost : ℚ
  max_seq_len_source : Nat
  positional_embedding_type : String
  preprocess_sequence : String
deriving DecidableEq

/-- Modelled from the spec: `layers.prepare_source_length_mask` is defined in
`sockeye/layers.py`, which is not under `src/`.  Per the spec, with
`expand=False` it returns a single-head mask of shape (batch, max_length)
in which position j of row i is valid iff `j < valid_length[i]`. -/
def prepare_source_length_mask (valid_length : List Nat) (_heads : Nat)
    (max_length : Nat) : List (List Bool) :=
  valid_length.map (fun vl => (List.range max_length).map (fun j => decide (j < vl)))

/-- The attention-mask argument handed to the encoder blocks: the single-head
(batch, max_len) mask on the native fused-attention path, the expanded
per-head mask otherwise. -/
inductive AttMask where
  | single (m : List (List Bool))
  | expanded (m : List (List (List Bool)))

/-- Lines 224-225: `unsqueeze/expand/reshape` of the single-head mask to
shape (batch*heads, max_len, max_len): each batch row is replicated `heads`
times and then `max_len` times along a new axis. -/
def expandMask (heads : Nat) (max_len : Nat) (m : List (List Bool)) :
    List (List (List Bool)) :=
  (List.flatten (m.map (fun row => List.replicate heads row))).map
    (fun row => List.replicate max_len row)

/-- Submodules of a `TransformerEncoder` built in `__init__` from code outside
`encoder.py`: positional embeddings, the encoder blocks, and the final
process block, as opaque shape-level functions. -/
structure TransformerParams where
  pos_embedding : Tensor3 → Tensor3
  layers : List (Tensor3 → AttMask → Tensor3)
  final_process : Tensor3 → Tensor3

/-- Models the `data.size()` second component: the (uniform) sequence length. -/
def size1 (t : Tensor3) : Nat := (t.headD []).length

/-- Models `TransformerEncoder.forward` (lines 212-242): positional embedding,
optional dropout, mask construction, optional expansion and batch/time
transposition on the non-native path, the layer stack, the final process
block, and the triple returned at line 242. -/
def TransformerEncoder.forward (cfg : TransformerConfig) (tp : TransformerParams)
    (using_native_mha : Bool) (rng : Nat → Nat → Nat → Bool)
    (data : Tensor3) (valid_length : List Nat) :
    Tensor3 × List Nat × List (List Bool) :=
  let data := tp.pos_embedding data
  let data := applyDropoutOpt cfg.dropout_prepost rng data
  let max_len := size1 data
  let single_head_att_mask :=
    prepare_source_length_mask valid_length cfg.attention_heads max_len
  let att_mask : AttMask :=
    if using_native_mha then AttMask.single single_head_att_mask
    else AttMask.expanded (expandMask cfg.attention_heads max_len single_head_att_mask)
  let data := if using_native_mha then data else data.transpose
  let data := tp.layers.foldl (fun d layer => layer d att_mask) data
  let data := tp.final_process data
  let data := if using_native_mha then data else data.transpose
  (data, valid_length, single_head_att_mask)

/-- Models `TransformerEncoder.get_num_hidden` (lines 244-248). -/
def TransformerEncoder.get_num_hidden (cfg : TransformerConfig) : Nat :=
  cfg.model_size

/-- Subclass `TransformerEncoder` does not override `get_encoded_seq_len`. -/
def TransformerEncoder.get_encoded_seq_len : Int → Int := Encoder.get_encoded_seq_len

/-- Subclass `TransformerEncoder` does not override `get_max_seq_len`: it inherits the
base-class default. -/
def TransformerEncoder.get_max_seq_len (_cfg : TransformerConfig) : Option Nat :=
  Encoder.get_max_seq_len

/-- Spec-side bucket (refinement reference): the embedded average-mode
factors, in configured order. -/
def specAverageBucket (streams : List (Tensor3 × String)) : List Tensor3 :=
  (streams.filter (fun s => s.2 = C.FACTORS_COMBINE_AVERAGE)).map Prod.fst

/-- Spec-side bucket (refinement reference): the embedded sum-mode factors,
in configured order. -/
def specSumBucket (streams : List (Tensor3 × String)) : List Tensor3 :=
  (streams.filter (fun s => s.2 = C.FACTORS_COMBINE_SUM)).map Prod.fst

/-- Spec-side bucket (refinement reference): the embedded concatenate-mode
factors, in configured order. -/
def specConcatBucket (streams : List (Tensor3 × String)) : List Tensor3 :=
  (streams.filter (fun s => s.2 = C.FACTORS_COMBINE_CONCAT)).map Prod.fst

/-- Written from the spec's words: the primary embedding is stacked with all
average-mode factor embeddings and averaged, every sum-mode factor embedding
is then added elementwise, and finally every concatenate-mode factor
embedding is appended along the feature axis, in configured order. -/
def specCombine (primary : Tensor3) (streams : List (Tensor3 × String)) : Tensor3 :=
  (specConcatBucket streams).foldl tenCat2
    ((specSumBucket streams).foldl tenAdd
      (meanStack primary (specAverageBucket streams)))

/-- Every feature vector of the tensor has width `w`. -/
def HasWidth (w : Nat) (t : Tensor3) : Prop := ∀ m ∈ t, ∀ v ∈ m, v.length = w

/-- Well-formed embedding table of shape (vocab, width), as `pt.nn.Embedding`
guarantees for its weight. -/
def tableWF (t : Mat) (vocab width : Nat) : Prop :=
  t.length = vocab ∧ ∀ row ∈ t, row.length = width

/-- Every id of the slice indexes into the vocabulary. -/
def idsInRange (ids : List (List Nat)) (vocab : Nat) : Prop :=
  ∀ row ∈ ids, ∀ tid ∈ row, tid < vocab

/-- Width of the embedded vectors a factor actually produces: the primary
width when the factor shares the primary table (`__init__` line 114),
otherwise its own configured width (line 116). -/
def effectiveWidth (cfg : EmbeddingConfig) (fc : FactorConfig) : Nat :=
  if fc.share_embedding then cfg.num_embed else fc.num_embed

/-- Total widening contributed by the concatenate-mode factors. -/
def concatWidth (cfg : EmbeddingConfig) : Nat :=
  (((cfg.factor_configs.getD []).filter
      (fun fc => fc.combine = C.FACTORS_COMBINE_CONCAT)).map (effectiveWidth cfg)).sum

/-- The outer shape of a nested list: the per-batch-row sequence lengths. -/
def outerShape {α : Type} (t : List (List α)) : List Nat := t.map List.length

/-- The feature vector of a 3-d tensor at batch `i`, position `j` (empty when
out of range). -/
def entry3 (t : Tensor3) (i j : Nat) : Vec := (t.getD i []).getD j []

instance (t : Mat) (vocab width : Nat) : Decidable (tableWF t vocab width) := by
  unfold tableWF
  infer_instance

instance (ids : List (List Nat)) (vocab : Nat) : Decidable (idsInRange ids vocab) := by
  unfold idsInRange
  infer_instance

instance (w : Nat) (t : Tensor3) : Decidable (HasWidth w t) := by
  unfold HasWidth
  infer_instance

/-- A fixed dropout mask: never drop. -/
def exRng : Nat → Nat → Nat → Bool := fun _ _ _ => false

/-- A fixed dropout mask: always drop. -/
def exRngB : Nat → Nat → Nat → Bool := fun _ _ _ => true

/-- Example factor config, average mode. -/
def exFcAvg : FactorConfig := ⟨2, 2, "average", false⟩

/-- Example factor config, sum mode. -/
def exFcSum : FactorConfig := ⟨2, 2, "sum", false⟩

/-- Example factor config, concatenate mode, width 3. -/
def exFcCat : FactorConfig := ⟨2, 3, "concat", false⟩

/-- Example factor config sharing the primary table: its own vocab/width
settings (5, 7) differ from the primary table's (2, 2). -/
def exFcShared : FactorConfig := ⟨5, 7, "concat", true⟩

/-- Example embedding config exercising all combination modes. -/
def exCfg : EmbeddingConfig := ⟨2, 2, 0, some [exFcAvg, exFcSum, exFcCat, exFcShared], false⟩

/-- Example parameters for `exCfg`: a 2×2 primary table and one table per
factor (the last one unused because the factor shares the primary table). -/
def exP : EmbeddingParams :=
  ⟨[[1, 2], [3, 4]],
   [[[1, 0], [0, 1]],
    [[2, 1], [1, 2]],
    [[1, 2, 3], [4, 5, 6]],
    []]⟩

/-- Example id input for `exCfg`: batch 1, sequence 2, five factor channels. -/
def exData : List (List (List Nat)) := [[[1, 0, 1, 1, 0], [0, 1, 0, 0, 1]]]

/-- Config with two sum-mode factors and one concatenate factor, for the
factor-order experiment. -/
def exCfg4 : EmbeddingConfig := ⟨2, 2, 0, some [exFcSum, exFcSum, exFcCat], false⟩

/-- Parameters for `exCfg4`. -/
def exP4 : EmbeddingParams :=
  ⟨[[1, 2], [3, 4]], [[[2, 1], [1, 2]], [[5, 0], [0, 5]], [[1, 2, 3], [4, 5, 6]]]⟩

/-- Variant of `exP4` with the two sum-factor tables exchanged. -/
def exP4b : EmbeddingParams :=
  ⟨[[1, 2], [3, 4]], [[[5, 0], [0, 5]], [[2, 1], [1, 2]], [[1, 2, 3], [4, 5, 6]]]⟩

/-- Input for `exCfg4`. -/
def exData4 : List (List (List Nat)) := [[[0, 1, 0, 1], [1, 0, 1, 0]]]

/-- Variant of `exData4` with the two sum-factor channels exchanged. -/
def exData4b : List (List (List Nat)) := [[[0, 0, 1, 1], [1, 1, 0, 0]]]

/-- Example transformer config: model width 16, 2 heads, 2 layers, dropout
disabled, maximum source length 100. -/
def exTCfg : TransformerConfig := ⟨16, 2, 2, 0, 100, "fixed", "n"⟩

/-- Example transformer submodules: identity positional embedding, no
layers, identity final process block. -/
def exTP : TransformerParams := ⟨id, [], id⟩

/-- Example embedded input for the transformer: batch 2, sequence 2. -/
def exTData : Tensor3 := [[[1, 0], [0, 1]], [[1, 1], [0, 0]]]

/-- Example valid lengths for `exTData`. -/
def exVL : List Nat := [1, 2]

theorem tenScale_one (t : Tensor3) : tenScale 1 t = t := by
  simp [tenScale]

theorem num_factors_gt_one_iff (cfg : EmbeddingConfig) :
    cfg.num_factors > 1 ↔ cfg.factor_configs.getD [] ≠ [] := by
  cases h : cfg.factor_configs with
  | none => simp [EmbeddingConfig.num_factors, h]
  | some fcs =>
    simp only [EmbeddingConfig.num_factors, h, Option.getD_some, gt_iff_lt,
      Nat.lt_add_right_iff_pos, List.length_pos, ne_eq]

theorem bucketFactors_eq_ok (streams : List (Tensor3 × String))
    (h : ∀ s ∈ streams, s.2 ∈ C.FACTORS_COMBINE_CHOICES) :
    bucketFactors streams =
      Except.ok (specAverageBucket streams, specConcatBucket streams,
                 specSumBucket streams) := by
  induction streams with
  | nil => simp [bucketFactors, specAverageBucket, specConcatBucket, specSumBucket]
  | cons s rest ih =>
    obtain ⟨fe, comb⟩ := s
    have hrest : ∀ x ∈ rest, x.2 ∈ C.FACTORS_COMBINE_CHOICES :=
      fun x hx => h x (List.mem_cons_of_mem _ hx)
    have hcomb : comb ∈ C.FACTORS_COMBINE_CHOICES := h (fe, comb) (List.mem_cons_self _ _)
    rw [C.FACTORS_COMBINE_CHOICES] at hcomb
    simp only [List.mem_cons, List.not_mem_nil, or_false] at hcomb
    rcases hcomb with h1 | h1 | h1 <;>
      subst h1 <;>
      simp [bucketFactors, ih hrest, Except.map, specAverageBucket,
            specConcatBucket, specSumBucket, C.FACTORS_COMBINE_SUM,
            C.FACTORS_COMBINE_AVERAGE, C.FACTORS_COMBINE_CONCAT]

/-- Shared refinement lemma: with at least one factor, matching table list,
and only valid combination strings, `Embedding.forward` succeeds and computes
exactly the spec-side combination formula, followed by optional dropout. -/
theorem Embedding.forward_eq_spec (cfg : EmbeddingConfig) (p : EmbeddingParams)
    (rng : Nat → Nat → Nat → Bool) (data : List (List (List Nat)))
    (hfac : cfg.factor_configs.getD [] ≠ [])
    (hvalid : ∀ s ∈ Embedding.factor_embedded cfg p data,
      s.2 ∈ C.FACTORS_COMBINE_CHOICES) :
    Embedding.forward cfg p rng data =
      Except.ok (applyDropoutOpt cfg.dropout rng
        (specCombine (embLookup p.embedding (factorSlice data 0))
          (Embedding.factor_embedded cfg p data))) := by
  have hnf : cfg.num_factors > 1 := (num_factors_gt_one_iff cfg).mpr hfac
  rw [Embedding.forward]
  simp only [hnf, if_pos, bucketFactors_eq_ok _ hvalid]
  rw [specCombine]
  rcases hav : specAverageBucket (Embedding.factor_embedded cfg p data) with _ | ⟨a, as⟩ <;>
    rcases hco : specConcatBucket (Embedding.factor_embedded cfg p data) with _ | ⟨c, cs⟩ <;>
    simp [hav, hco, Except.map, meanStack, tenSum, tenScale_one]

theorem mem_zipWith {α β γ : Type} {f : α → β → γ} {c : γ} :
    ∀ {a : List α} {b : List β}, c ∈ List.zipWith f a b → ∃ x ∈ a, ∃ y ∈ b, c = f x y := by
  intro a
  induction a with
  | nil => intro b h; simp at h
  | cons x xs ih =>
    intro b h
    cases b with
    | nil => simp at h
    | cons y ys =>
      simp only [List.zipWith_cons_cons, List.mem_cons] at h
      rcases h with h | h
      · exact ⟨x, List.mem_cons_self _ _, y, List.mem_cons_self _ _, h⟩
      · obtain ⟨u, hu, v, hv, rfl⟩ := ih h
        exact ⟨u, List.mem_cons_of_mem _ hu, v, List.mem_cons_of_mem _ hv, rfl⟩

theorem vecAdd_right_comm : ∀ (b a₁ a₂ : Vec),
    vecAdd (vecAdd b a₁) a₂ = vecAdd (vecAdd b a₂) a₁ := by
  intro b
  induction b with
  | nil => intro a₁ a₂; simp [vecAdd]
  | cons x xs ih =>
    intro a₁ a₂
    cases a₁ with
    | nil => simp [vecAdd]
    | cons y ys =>
      cases a₂ with
      | nil => simp [vecAdd]
      | cons z zs =>
        simp only [vecAdd, List.zipWith_cons_cons] at ih ⊢
        exact congrArg₂ _ (by ring) (ih ys zs)

theorem matAdd_right_comm : ∀ (b a₁ a₂ : Mat),
    matAdd (matAdd b a₁) a₂ = matAdd (matAdd b a₂) a₁ := by
  intro b
  induction b with
  | nil => intro a₁ a₂; simp [matAdd]
  | cons x xs ih =>
    intro a₁ a₂
    cases a₁ with
    | nil => simp [matAdd]
    | cons y ys =>
      cases a₂ with
      | nil => simp [matAdd]
      | cons z zs =>
        simp only [matAdd, List.zipWith_cons_cons] at ih ⊢
        exact congrArg₂ _ (vecAdd_right_comm x y z) (ih ys zs)

theorem tenAdd_right_comm : ∀ (b a₁ a₂ : Tensor3),
    tenAdd (tenAdd b a₁) a₂ = tenAdd (tenAdd b a₂) a₁ := by
  intro b
  induction b with
  | nil => intro a₁ a₂; simp [tenAdd]
  | cons x xs ih =>
    intro a₁ a₂
    cases a₁ with
    | nil => simp [tenAdd]
    | cons y ys =>
      cases a₂ with
      | nil => simp [tenAdd]
      | cons z zs =>
        simp only [tenAdd, List.zipWith_cons_cons] at ih ⊢
        exact congrArg₂ _ (matAdd_right_comm x y z) (ih ys zs)

theorem hasWidth_embLookup {table : Mat} {vocab w : Nat} {ids : List (List Nat)}
    (hwf : tableWF table vocab w) (hr : idsInRange ids vocab) :
    HasWidth w (embLookup table ids) := by
  intro m hm v hv
  simp only [embLookup, List.mem_map] at hm
  obtain ⟨row, hrow, rfl⟩ := hm
  simp only [List.mem_map] at hv
  obtain ⟨tid, htid, rfl⟩ := hv
  have hlt : tid < table.length := hwf.1 ▸ hr row hrow tid htid
  rw [List.getD_eq_getElem table [] hlt]
  exact hwf.2 _ (List.getElem_mem hlt)

theorem hasWidth_tenAdd {w : Nat} {a b : Tensor3}
    (ha : HasWidth w a) (hb : HasWidth w b) : HasWidth w (tenAdd a b) := by
  intro m hm v hv
  obtain ⟨x, hx, y, hy, rfl⟩ := mem_zipWith hm
  obtain ⟨u, hu, s, hs, rfl⟩ := mem_zipWith hv
  simp only [vecAdd, List.length_zipWith, ha x hx u hu, hb y hy s hs, min_self]

theorem hasWidth_tenCat2 {w₁ w₂ : Nat} {a b : Tensor3}
    (ha : HasWidth w₁ a) (hb : HasWidth w₂ b) :
    HasWidth (w₁ + w₂) (tenCat2 a b) := by
  intro m hm v hv
  obtain ⟨x, hx, y, hy, rfl⟩ := mem_zipWith hm
  obtain ⟨u, hu, s, hs, rfl⟩ := mem_zipWith hv
  simp only [List.length_append, ha x hx u hu, hb y hy s hs]

theorem hasWidth_tenScale {w : Nat} {c : ℚ} {t : Tensor3}
    (h : HasWidth w t) : HasWidth w (tenScale c t) := by
  intro m hm v hv
  simp only [tenScale, List.mem_map] at hm
  obtain ⟨m₀, hm₀, rfl⟩ := hm
  simp only [List.mem_map] at hv
  obtain ⟨v₀, hv₀, rfl⟩ := hv
  simpa using h m₀ hm₀ v₀ hv₀

theorem hasWidth_foldl_tenAdd {w : Nat} {ts : List Tensor3} {acc : Tensor3}
    (hacc : HasWidth w acc) (hts : ∀ t ∈ ts, HasWidth w t) :
    HasWidth w (ts.foldl tenAdd acc) := by
  induction ts generalizing acc with
  | nil => exact hacc
  | cons t ts ih =>
    exact ih (hasWidth_tenAdd hacc (hts t (List.mem_cons_self _ _)))
      (fun x hx => hts x (List.mem_cons_of_mem _ hx))

theorem hasWidth_meanStack {w : Nat} {h : Tensor3} {rest : List Tensor3}
    (hh : HasWidth w h) (hrest : ∀ t ∈ rest, HasWidth w t) :
    HasWidth w (meanStack h rest) :=
  hasWidth_tenScale (hasWidth_foldl_tenAdd hh hrest)

theorem hasWidth_applyDropout {w : Nat} {p : ℚ} {rng : Nat → Nat → Nat → Bool}
    {t : Tensor3} (h : HasWidth w t) : HasWidth w (applyDropout p rng t) := by
  intro m hm v hv
  obtain ⟨i, hi, rfl⟩ := List.exists_of_mem_mapIdx hm
  obtain ⟨j, hj, rfl⟩ := List.exists_of_mem_mapIdx hv
  simpa using h _ (List.getElem_mem hi) _ (List.getElem_mem hj)

theorem hasWidth_applyDropoutOpt {w : Nat} {p : ℚ} {rng : Nat → Nat → Nat → Bool}
    {t : Tensor3} (h : HasWidth w t) : HasWidth w (applyDropoutOpt p rng t) := by
  rw [applyDropoutOpt]
  cases dropoutModule p with
  | none => exact h
  | some dp => exact hasWidth_applyDropout h

theorem length_eq_of_outerShape {α : Type} {a b : List (List α)}
    (h : outerShape a = outerShape b) : a.length = b.length := by
  simpa [outerShape] using congrArg List.length h

theorem rowLen_eq_outerShape {α : Type} (t : List (List α)) (i : Nat) :
    (t.getD i []).length = (outerShape t).getD i 0 := by
  by_cases h : i < t.length
  · rw [List.getD_eq_getElem t [] h,
      List.getD_eq_getElem _ 0 (by simpa [outerShape] using h)]
    simp [outerShape]
  · push_neg at h
    rw [List.getD_eq_getElem?_getD, List.getElem?_eq_none h,
      List.getD_eq_getElem?_getD, List.getElem?_eq_none (by simpa [outerShape] using h)]
    rfl

theorem rowLen_eq_of_outerShape {α : Type} {a b : List (List α)}
    (h : outerShape a = outerShape b) (i : Nat) :
    (a.getD i []).length = (b.getD i []).length := by
  rw [rowLen_eq_outerShape, rowLen_eq_outerShape, h]

theorem outerShape_embLookup (table : Mat) (ids : List (List Nat)) :
    outerShape (embLookup table ids) = outerShape ids := by
  simp [outerShape, embLookup, List.map_map, Function.comp]

theorem outerShape_factorSlice (data : List (List (List Nat))) (i : Nat) :
    outerShape (factorSlice data i) = outerShape data := by
  simp [outerShape, factorSlice, List.map_map, Function.comp]

theorem outerShape_tenAdd {a b : Tensor3} (h : outerShape a = outerShape b) :
    outerShape (tenAdd a b) = outerShape a := by
  induction a generalizing b with
  | nil => simp [tenAdd, outerShape]
  | cons x xs ih =>
    cases b with
    | nil => simp [outerShape] at h
    | cons y ys =>
      simp only [outerShape, List.map_cons, List.cons.injEq] at h
      simp only [tenAdd, List.zipWith_cons_cons, outerShape, List.map_cons,
        List.cons.injEq]
      refine ⟨?_, ?_⟩
      · simp [matAdd, h.1]
      · simpa [tenAdd, outerShape] using ih (by simpa [outerShape] using h.2)

theorem outerShape_tenCat2 {a b : Tensor3} (h : outerShape a = outerShape b) :
    outerShape (tenCat2 a b) = outerShape a := by
  induction a generalizing b with
  | nil => simp [tenCat2, outerShape]
  | cons x xs ih =>
    cases b with
    | nil => simp [outerShape] at h
    | cons y ys =>
      simp only [outerShape, List.map_cons, List.cons.injEq] at h
      simp only [tenCat2, List.zipWith_cons_cons, outerShape, List.map_cons,
        List.cons.injEq]
      refine ⟨?_, ?_⟩
      · simp [h.1]
      · simpa [tenCat2, outerShape] using ih (by simpa [outerShape] using h.2)

theorem outerShape_tenScale (c : ℚ) (t : Tensor3) :
    outerShape (tenScale c t) = outerShape t := by
  simp [outerShape, tenScale, List.map_map, Function.comp]

theorem outerShape_foldl_tenAdd {S : List Nat} {ts : List Tensor3} {acc : Tensor3}
    (hacc : outerShape acc = S) (hts : ∀ t ∈ ts, outerShape t = S) :
    outerShape (ts.foldl tenAdd acc) = S := by
  induction ts generalizing acc with
  | nil => exact hacc
  | cons t ts ih =>
    refine ih (Eq.trans (outerShape_tenAdd ?_) hacc)
      (fun x hx => hts x (List.mem_cons_of_mem _ hx))
    rw [hacc, hts t (List.mem_cons_self _ _)]

theorem outerShape_meanStack {S : List Nat} {h : Tensor3} {rest : List Tensor3}
    (hh : outerShape h = S) (hrest : ∀ t ∈ rest, outerShape t = S) :
    outerShape (meanStack h rest) = S := by
  rw [meanStack, outerShape_tenScale]
  exact outerShape_foldl_tenAdd hh hrest

theorem entry3_tenCat2 {a b : Tensor3} (h : outerShape a = outerShape b)
    (i j : Nat) : entry3 (tenCat2 a b) i j = entry3 a i j ++ entry3 b i j := by
  have hlen : a.length = b.length := length_eq_of_outerShape h
  have hlcat : (tenCat2 a b).length = a.length := by
    simp [tenCat2, List.length_zipWith, hlen]
  by_cases hi : i < a.length
  · have hib : i < b.length := hlen ▸ hi
    have hrow : (a.getD i []).length = (b.getD i []).length :=
      rowLen_eq_of_outerShape h i
    have hcat_row : (tenCat2 a b).getD i [] =
        List.zipWith (fun x y => x ++ y) (a.getD i []) (b.getD i []) := by
      rw [List.getD_eq_getElem _ [] (hlcat ▸ hi), List.getD_eq_getElem a [] hi,
        List.getD_eq_getElem b [] hib]
      simp [tenCat2, List.getElem_zipWith]
    by_cases hj : j < (a.getD i []).length
    · have hjb : j < (b.getD i []).length := hrow ▸ hj
      have hjz : j < (List.zipWith (fun x y : Vec => x ++ y)
          (a.getD i []) (b.getD i [])).length := by
        simp only [List.length_zipWith]
        omega
      rw [entry3, entry3, entry3, hcat_row, List.getD_eq_getElem _ [] hjz,
        List.getD_eq_getElem _ [] hj, List.getD_eq_getElem _ [] hjb]
      simp [List.getElem_zipWith]
    · push_neg at hj
      have hjb : (b.getD i []).length ≤ j := hrow ▸ hj
      have hjz : (List.zipWith (fun x y : Vec => x ++ y)
          (a.getD i []) (b.getD i [])).length ≤ j := by
        simp only [List.length_zipWith]
        omega
      rw [entry3, entry3, entry3, hcat_row]
      rw [List.getD_eq_getElem?_getD (List.zipWith _ _ _), List.getElem?_eq_none hjz]
      rw [List.getD_eq_getElem?_getD (a.getD i []), List.getElem?_eq_none hj]
      rw [List.getD_eq_getElem?_getD (b.getD i []), List.getElem?_eq_none hjb]
      rfl
  · push_neg at hi
    have hib : b.length ≤ i := hlen ▸ hi
    have ha0 : a.getD i [] = ([] : Mat) := by
      rw [List.getD_eq_getElem?_getD, List.getElem?_eq_none hi]
      rfl
    have hb0 : b.getD i [] = ([] : Mat) := by
      rw [List.getD_eq_getElem?_getD, List.getElem?_eq_none hib]
      rfl
    have hc0 : (tenCat2 a b).getD i [] = ([] : Mat) := by
      rw [List.getD_eq_getElem?_getD, List.getElem?_eq_none (by rw [hlcat]; exact hi)]
      rfl
    rw [entry3, entry3, entry3, ha0, hb0, hc0]
    rfl

theorem entry3_foldl_tenCat2 {ts : List Tensor3} {acc : Tensor3}
    (hts : ∀ t ∈ ts, outerShape t = outerShape acc) (i j : Nat) :
    entry3 (ts.foldl tenCat2 acc) i j =
      entry3 acc i j ++ (ts.map (fun t => entry3 t i j)).flatten := by
  induction ts generalizing acc with
  | nil => simp
  | cons t ts ih =>
    have hshape : outerShape acc = outerShape t :=
      (hts t (List.mem_cons_self _ _)).symm
    have hcat : outerShape (tenCat2 acc t) = outerShape acc :=
      outerShape_tenCat2 hshape
    have hts' : ∀ u ∈ ts, outerShape u = outerShape (tenCat2 acc t) := by
      intro u hu
      rw [hcat]
      exact hts u (List.mem_cons_of_mem _ hu)
    simp only [List.foldl_cons, ih hts', entry3_tenCat2 hshape, List.map_cons,
      List.flatten_cons, List.append_assoc]

theorem factor_embedded_length (cfg : EmbeddingConfig) (p : EmbeddingParams)
    (data : List (List (List Nat)))
    (hlen : p.factor_tables.length = (cfg.factor_configs.getD []).length) :
    (Embedding.factor_embedded cfg p data).length =
      (cfg.factor_configs.getD []).length := by
  simp [Embedding.factor_embedded, Embedding.factor_embeds,
    Embedding.factor_combinations, hlen]

theorem factor_embedded_get (cfg : EmbeddingConfig) (p : EmbeddingParams)
    (data : List (List (List Nat))) (i : Nat)
    (h₁ : i < (cfg.factor_configs.getD []).length)
    (h₂ : i < (Embedding.factor_embedded cfg p data).length)
    (h₃ : i < p.factor_tables.length) :
    (Embedding.factor_embedded cfg p data).get ⟨i, h₂⟩ =
      (embLookup (if ((cfg.factor_configs.getD []).get ⟨i, h₁⟩).share_embedding
          then p.embedding else p.factor_tables.get ⟨i, h₃⟩)
        (factorSlice data (i + 1)),
       ((cfg.factor_configs.getD []).get ⟨i, h₁⟩).combine) := by
  simp only [Embedding.factor_embedded, List.get_eq_getElem, List.getElem_mapIdx,
    List.getElem_zip, Embedding.factor_embeds, List.getElem_map,
    Embedding.factor_combinations]

theorem factor_embedded_forall₂_combine (cfg : EmbeddingConfig)
    (p : EmbeddingParams) (data : List (List (List Nat)))
    (hlen : p.factor_tables.length = (cfg.factor_configs.getD []).length) :
    List.Forall₂ (fun fc s => s.2 = fc.combine)
      (cfg.factor_configs.getD []) (Embedding.factor_embedded cfg p data) := by
  rw [List.forall₂_iff_get]
  refine ⟨(factor_embedded_length cfg p data hlen).symm, ?_⟩
  intro i hi₁ hi₂
  rw [factor_embedded_get cfg p data i hi₁ hi₂ (by rw [hlen]; exact hi₁)]

theorem map_snd_of_forall₂ {fcs : List FactorConfig}
    {streams : List (Tensor3 × String)}
    (h : List.Forall₂ (fun fc s => s.2 = fc.combine) fcs streams) :
    streams.map Prod.snd = fcs.map FactorConfig.combine := by
  induction h with
  | nil => rfl
  | cons hr _ ih => simp [ih, hr]

theorem factor_embedded_map_snd (cfg : EmbeddingConfig) (p : EmbeddingParams)
    (data : List (List (List Nat)))
    (hlen : p.factor_tables.length = (cfg.factor_configs.getD []).length) :
    (Embedding.factor_embedded cfg p data).map Prod.snd =
      Embedding.factor_combinations cfg :=
  map_snd_of_forall₂ (factor_embedded_forall₂_combine cfg p data hlen)

theorem map_error_iff {α β γ : Type} (f : β → γ) (x : Except α β) :
    (∃ e, x.map f = Except.error e) ↔ ∃ e, x = Except.error e := by
  cases x <;> simp [Except.map]

theorem bucketFactors_error_iff (s : List (Tensor3 × String)) :
    (∃ e, bucketFactors s = Except.error e) ↔
      ∃ t ∈ s, t.2 ∉ C.FACTORS_COMBINE_CHOICES := by
  induction s with
  | nil => simp [bucketFactors]
  | cons t rest ih =>
    obtain ⟨fe, comb⟩ := t
    by_cases h1 : comb = C.FACTORS_COMBINE_CONCAT
    · subst h1
      have hstep : bucketFactors ((fe, C.FACTORS_COMBINE_CONCAT) :: rest) =
          (bucketFactors rest).map (fun b => (b.1, fe :: b.2.1, b.2.2)) := by
        simp [bucketFactors]
      rw [hstep, map_error_iff]
      simp [ih, C.FACTORS_COMBINE_CHOICES, C.FACTORS_COMBINE_CONCAT,
        C.FACTORS_COMBINE_SUM, C.FACTORS_COMBINE_AVERAGE]
    · by_cases h2 : comb = C.FACTORS_COMBINE_SUM
      · subst h2
        have hstep : bucketFactors ((fe, C.FACTORS_COMBINE_SUM) :: rest) =
            (bucketFactors rest).map (fun b => (b.1, b.2.1, fe :: b.2.2)) := by
          simp [bucketFactors, C.FACTORS_COMBINE_SUM, C.FACTORS_COMBINE_CONCAT]
        rw [hstep, map_error_iff]
        simp [ih, C.FACTORS_COMBINE_CHOICES, C.FACTORS_COMBINE_CONCAT,
          C.FACTORS_COMBINE_SUM, C.FACTORS_COMBINE_AVERAGE]
      · by_cases h3 : comb = C.FACTORS_COMBINE_AVERAGE
        · subst h3
          have hstep : bucketFactors ((fe, C.FACTORS_COMBINE_AVERAGE) :: rest) =
              (bucketFactors rest).map (fun b => (fe :: b.1, b.2.1, b.2.2)) := by
            simp [bucketFactors, C.FACTORS_COMBINE_SUM, C.FACTORS_COMBINE_CONCAT,
              C.FACTORS_COMBINE_AVERAGE]
          rw [hstep, map_error_iff]
          simp [ih, C.FACTORS_COMBINE_CHOICES, C.FACTORS_COMBINE_CONCAT,
            C.FACTORS_COMBINE_SUM, C.FACTORS_COMBINE_AVERAGE]
        · have hstep : bucketFactors ((fe, comb) :: rest) =
              Except.error ("Unknown combine value for factors: " ++ comb) := by
            simp [bucketFactors, h1, h2, h3]
          rw [hstep]
          constructor
          · intro _
            refine ⟨(fe, comb), List.mem_cons_self _ _, ?_⟩
            simp [C.FACTORS_COMBINE_CHOICES, h1, h2, h3]
          · intro _
            exact ⟨_, rfl⟩

theorem forall₂_filter_transfer {α β : Type} {R : α → β → Prop}
    {pa : α → Bool} {pb : β → Bool} {l₁ : List α} {l₂ : List β}
    (h : List.Forall₂ R l₁ l₂) (hp : ∀ a b, R a b → pa a = pb b) :
    List.Forall₂ R (l₁.filter pa) (l₂.filter pb) := by
  induction h with
  | nil => exact List.Forall₂.nil
  | @cons a b t₁ t₂ hr _ ih =>
    by_cases hpa : pa a
    · have hpb : pb b = true := by rw [← hp a b hr]; exact hpa
      simp only [List.filter_cons, hpa, hpb, if_true]
      exact List.Forall₂.cons hr ih
    · have hpb : pb b = false := by rw [← hp a b hr]; simpa using hpa
      simp only [List.filter_cons, hpb, if_false, Bool.false_eq_true,
        eq_self_iff_true]
      simpa [hpa] using ih

theorem forall₂_mem_right {α β : Type} {R : α → β → Prop} {l₁ : List α}
    {l₂ : List β} (h : List.Forall₂ R l₁ l₂) :
    ∀ b ∈ l₂, ∃ a ∈ l₁, R a b := by
  induction h with
  | nil => intro b hb; simp at hb
  | @cons a b' t₁ t₂ hr _ ih =>
    intro b hb
    rcases List.mem_cons.mp hb with rfl | hb
    · exact ⟨a, List.mem_cons_self _ _, hr⟩
    · obtain ⟨x, hx, hRx⟩ := ih b hb
      exact ⟨x, List.mem_cons_of_mem _ hx, hRx⟩

theorem hasWidth_foldl_tenCat2 {cfg : EmbeddingConfig} {fcsC : List FactorConfig}
    {ts : List Tensor3}
    (hF : List.Forall₂ (fun fc t => HasWidth (effectiveWidth cfg fc) t) fcsC ts) :
    ∀ (w : Nat) (acc : Tensor3), HasWidth w acc →
      HasWidth (w + (fcsC.map (effectiveWidth cfg)).sum) (ts.foldl tenCat2 acc) := by
  induction hF with
  | nil => intro w acc hacc; simpa using hacc
  | @cons fc t fcs ts hr _ ih =>
    intro w acc hacc
    have h1 : HasWidth (w + effectiveWidth cfg fc) (tenCat2 acc t) :=
      hasWidth_tenCat2 hacc hr
    have h2 := ih (w + effectiveWidth cfg fc) (tenCat2 acc t) h1
    simpa [Nat.add_assoc] using h2

theorem mem_enum_of_lt {α : Type} {l : List α} {k : Nat} (hk : k < l.length) :
    (k, l.get ⟨k, hk⟩) ∈ l.enum := by
  have hk2 : k < l.enum.length := by simpa using hk
  have hmem := List.getElem_mem hk2
  rwa [List.getElem_enum] at hmem

theorem factor_embedded_forall₂_width (cfg : EmbeddingConfig)
    (p : EmbeddingParams) (data : List (List (List Nat)))
    (hlen : p.factor_tables.length = (cfg.factor_configs.getD []).length)
    (hwfprim : tableWF p.embedding cfg.vocab_size cfg.num_embed)
    (hwffac : ∀ kfc ∈ (cfg.factor_configs.getD []).enum,
      (kfc : Nat × FactorConfig).2.share_embedding = false →
      tableWF (p.factor_tables.getD kfc.1 []) kfc.2.vocab_size kfc.2.num_embed)
    (hrange : ∀ kfc ∈ (cfg.factor_configs.getD []).enum,
      idsInRange (factorSlice data ((kfc : Nat × FactorConfig).1 + 1))
        (if kfc.2.share_embedding then cfg.vocab_size else kfc.2.vocab_size)) :
    List.Forall₂
      (fun fc s => s.2 = fc.combine ∧ HasWidth (effectiveWidth cfg fc) s.1)
      (cfg.factor_configs.getD []) (Embedding.factor_embedded cfg p data) := by
  rw [List.forall₂_iff_get]
  refine ⟨(factor_embedded_length cfg p data hlen).symm, ?_⟩
  intro i h₁ h₂
  have h₃ : i < p.factor_tables.length := by rw [hlen]; exact h₁
  rw [factor_embedded_get cfg p data i h₁ h₂ h₃]
  refine ⟨rfl, ?_⟩
  have hmem := mem_enum_of_lt h₁
  by_cases hsh : ((cfg.factor_configs.getD []).get ⟨i, h₁⟩).share_embedding
  · have hr := hrange _ hmem
    rw [if_pos hsh] at hr
    simp only [if_pos hsh, effectiveWidth, hsh, if_true]
    exact hasWidth_embLookup hwfprim hr
  · have hshf : ((cfg.factor_configs.getD []).get ⟨i, h₁⟩).share_embedding = false := by
      simpa using hsh
    have hr := hrange _ hmem
    rw [if_neg hsh] at hr
    have hwf := hwffac _ hmem hshf
    have htab : p.factor_tables.getD i [] = p.factor_tables.get ⟨i, h₃⟩ := by
      rw [List.getD_eq_getElem _ [] h₃]
      rfl
    rw [htab] at hwf
    simp only [if_neg hsh, effectiveWidth, hshf, Bool.false_eq_true, if_false]
    exact hasWidth_embLookup hwf hr

theorem factor_embedded_modes (cfg : EmbeddingConfig) (p : EmbeddingParams)
    (data : List (List (List Nat)))
    (hlen : p.factor_tables.length = (cfg.factor_configs.getD []).length)
    (hmodes : ∀ fc ∈ cfg.factor_configs.getD [],
      fc.combine ∈ C.FACTORS_COMBINE_CHOICES) :
    ∀ s ∈ Embedding.factor_embedded cfg p data,
      s.2 ∈ C.FACTORS_COMBINE_CHOICES := by
  intro s hs
  have hm : s.2 ∈ (Embedding.factor_embedded cfg p data).map Prod.snd :=
    List.mem_map_of_mem _ hs
  rw [factor_embedded_map_snd cfg p data hlen, Embedding.factor_combinations] at hm
  obtain ⟨fc, hfc, heq⟩ := List.mem_map.mp hm
  rw [← heq]
  exact hmodes fc hfc

theorem streams_bad_iff (cfg : EmbeddingConfig) (p : EmbeddingParams)
    (data : List (List (List Nat)))
    (hlen : p.factor_tables.length = (cfg.factor_configs.getD []).length) :
    (∃ t ∈ Embedding.factor_embedded cfg p data,
        t.2 ∉ C.FACTORS_COMBINE_CHOICES) ↔
      ∃ fc ∈ cfg.factor_configs.getD [],
        fc.combine ∉ C.FACTORS_COMBINE_CHOICES := by
  have hsnd := factor_embedded_map_snd cfg p data hlen
  constructor
  · rintro ⟨t, ht, hbad⟩
    have hm : t.2 ∈ (Embedding.factor_embedded cfg p data).map Prod.snd :=
      List.mem_map_of_mem _ ht
    rw [hsnd, Embedding.factor_combinations] at hm
    obtain ⟨fc, hfc, heq⟩ := List.mem_map.mp hm
    refine ⟨fc, hfc, ?_⟩
    rw [heq]
    exact hbad
  · rintro ⟨fc, hfc, hbad⟩
    have hm : fc.combine ∈ (Embedding.factor_embedded cfg p data).map Prod.snd := by
      rw [hsnd, Embedding.factor_combinations]
      exact List.mem_map_of_mem _ hfc
    obtain ⟨t, ht, heq⟩ := List.mem_map.mp hm
    refine ⟨t, ht, ?_⟩
    rw [heq]
    exact hbad

/-- C6: for every `EmbeddingConfig`, `Embedding.get_num_hidden` returns the
configured primary embedding width `num_embed` — also when concatenate-mode
factors widen the output, in which case it is strictly smaller than the
widened output width — and for every `TransformerConfig`,
`TransformerEncoder.get_num_hidden` returns the configured model width. -/
theorem claim_get_num_hidden :
    (∀ cfg : EmbeddingConfig, Embedding.get_num_hidden cfg = cfg.num_embed) ∧
    (∀ cfg : EmbeddingConfig, concatWidth cfg > 0 →
      Embedding.get_num_hidden cfg < cfg.num_embed + concatWidth cfg) ∧
    (∀ tcfg : TransformerConfig,
      TransformerEncoder.get_num_hidden tcfg = tcfg.model_size) := by
  refine ⟨fun _ => rfl, fun cfg h => ?_, fun _ => rfl⟩
  have : Embedding.get_num_hidden cfg = cfg.num_embed := rfl
  omega

/-- Witness for C6, at a config whose factors concatenate (widening 5). -/
theorem claim_get_num_hidden_witness :
    Embedding.get_num_hidden exCfg = exCfg.num_embed ∧
    Embedding.get_num_hidden exCfg < exCfg.num_embed + concatWidth exCfg :=
  ⟨claim_get_num_hidden.1 exCfg, claim_get_num_hidden.2.1 exCfg (by decide)⟩

/-- C7 counterexample: a `TransformerEncoder` configured with maximum source
length 100 still reports no maximum length, because `TransformerEncoder`
inherits the base `Encoder.get_max_seq_len`, which returns `None`
unconditionally. -/
theorem claim_get_max_seq_len_cex :
    TransformerEncoder.get_max_seq_len exTCfg = none ∧
    ¬TransformerEncoder.get_max_seq_len exTCfg = some exTCfg.max_seq_len_source :=
  ⟨rfl, by decide⟩

/-- C7 amended: `TransformerEncoder.get_max_seq_len` returns `None` for every
configuration — the configured `max_seq_len_source` is never reported. -/
theorem claim_get_max_seq_len_amended :
    ∀ cfg : TransformerConfig, TransformerEncoder.get_max_seq_len cfg = none :=
  fun _ => rfl

/-- C8: `get_encoded_seq_len` is the identity on the base `Encoder` and on
both subclasses (the encoder never changes sequence length), and the second
component returned by `TransformerEncoder.forward` is the `valid_length`
tensor passed in, unchanged. -/
theorem claim_encoded_seq_len_and_valid_length_passthrough :
    (∀ n : Int, Encoder.get_encoded_seq_len n = n) ∧
    (∀ n : Int, Embedding.get_encoded_seq_len n = n) ∧
    (∀ n : Int, TransformerEncoder.get_encoded_seq_len n = n) ∧
    (∀ (cfg : TransformerConfig) (tp : TransformerParams) (native : Bool)
       (rng : Nat → Nat → Nat → Bool) (data : Tensor3) (valid_length : List Nat),
      (TransformerEncoder.forward cfg tp native rng data valid_length).2.1 =
        valid_length) :=
  ⟨fun _ => rfl, fun _ => rfl, fun _ => rfl, fun _ _ _ _ _ _ => rfl⟩

/-- C9: when every configured dropout probability is 0, no dropout module is
constructed (`dropoutModule` is `None` for both `Embedding` and
`TransformerEncoder`), and both forward functions are independent of the
dropout randomness: two passes with identical inputs and parameters agree. -/
theorem claim_dropout_zero_deterministic (cfg : EmbeddingConfig)
    (tcfg : TransformerConfig) (p : EmbeddingParams) (tp : TransformerParams)
    (native : Bool) (data : List (List (List Nat))) (tdata : Tensor3)
    (valid_length : List Nat) (rng rng' : Nat → Nat → Nat → Bool)
    (hc : cfg.dropout = 0) (ht : tcfg.dropout_prepost = 0) :
    dropoutModule cfg.dropout = none ∧
    dropoutModule tcfg.dropout_prepost = none ∧
    Embedding.forward cfg p rng data = Embedding.forward cfg p rng' data ∧
    TransformerEncoder.forward tcfg tp native rng tdata valid_length =
      TransformerEncoder.forward tcfg tp native rng' tdata valid_length := by
  have hfun : ∀ r : Nat → Nat → Nat → Bool, applyDropoutOpt cfg.dropout r = id := by
    intro r
    funext t
    simp [applyDropoutOpt, dropoutModule, hc]
  have hfunt : ∀ r : Nat → Nat → Nat → Bool,
      applyDropoutOpt tcfg.dropout_prepost r = id := by
    intro r
    funext t
    simp [applyDropoutOpt, dropoutModule, ht]
  refine ⟨by simp [dropoutModule, hc], by simp [dropoutModule, ht], ?_, ?_⟩
  · rw [Embedding.forward, Embedding.forward, hfun rng, hfun rng']
  · rw [TransformerEncoder.forward, TransformerEncoder.forward, hfunt rng, hfunt rng']

/-- Witness for C9 at configs with dropout 0, comparing the never-drop and
always-drop random masks. -/
theorem claim_dropout_zero_deterministic_witness :
    Embedding.forward exCfg exP exRng exData =
      Embedding.forward exCfg exP exRngB exData ∧
    TransformerEncoder.forward exTCfg exTP false exRng exTData exVL =
      TransformerEncoder.forward exTCfg exTP false exRngB exTData exVL :=
  ⟨(claim_dropout_zero_deterministic exCfg exTCfg exP exTP false exData exTData
      exVL exRng exRngB (by decide) (by decide)).2.2.1,
   (claim_dropout_zero_deterministic exCfg exTCfg exP exTP false exData exTData
      exVL exRng exRngB (by decide) (by decide)).2.2.2⟩

/-- C1: for every batch and valid-length tensor with all entries at most the
sequence length, the third component returned by `TransformerEncoder.forward`
is a single-head attention mask of shape (batch, max_len) whose row `i` marks
exactly the positions `j < valid_length[i]` as valid and all positions
`j ≥ valid_length[i]` as invalid. -/
theorem claim_source_length_mask (cfg : TransformerConfig)
    (tp : TransformerParams) (native : Bool) (rng : Nat → Nat → Nat → Bool)
    (data : Tensor3) (valid_length : List Nat) (max_len : Nat)
    (hml : size1 (applyDropoutOpt cfg.dropout_prepost rng (tp.pos_embedding data))
      = max_len)
    (hvl : ∀ vl ∈ valid_length, vl ≤ max_len) :
    ((TransformerEncoder.forward cfg tp native rng data valid_length).2.2).length
        = valid_length.length ∧
    (∀ row ∈ (TransformerEncoder.forward cfg tp native rng data valid_length).2.2,
      row.length = max_len) ∧
    (∀ i j, i < valid_length.length → j < max_len →
      (((TransformerEncoder.forward cfg tp native rng data
          valid_length).2.2).getD i []).getD j false
        = decide (j < valid_length.getD i 0)) := by
  have hmask : (TransformerEncoder.forward cfg tp native rng data valid_length).2.2
      = prepare_source_length_mask valid_length cfg.attention_heads max_len := by
    rw [← hml]
    rfl
  rw [hmask]
  refine ⟨by simp [prepare_source_length_mask], ?_, ?_⟩
  · intro row hrow
    rw [prepare_source_length_mask] at hrow
    obtain ⟨vl, _, rfl⟩ := List.mem_map.mp hrow
    simp
  · intro i j hi hj
    rw [prepare_source_length_mask,
      List.getD_eq_getElem _ [] (by simpa using hi), List.getElem_map,
      List.getD_eq_getElem _ false (by simpa using hj), List.getElem_map,
      List.getElem_range, List.getD_eq_getElem _ 0 hi]

/-- Witness for C1: batch 2, sequence length 2, valid lengths (1, 2); the
mask has 2 rows and position 1 of row 0 is invalid. -/
theorem claim_source_length_mask_witness :
    ((TransformerEncoder.forward exTCfg exTP false exRng exTData exVL).2.2).length
        = exVL.length ∧
    (((TransformerEncoder.forward exTCfg exTP false exRng exTData
        exVL).2.2).getD 0 []).getD 1 false = decide (1 < exVL.getD 0 0) :=
  ⟨(claim_source_length_mask exTCfg exTP false exRng exTData exVL 2
      (by decide) (by decide)).1,
   (claim_source_length_mask exTCfg exTP false exRng exTData exVL 2
      (by decide) (by decide)).2.2 0 1 (by decide) (by decide)⟩

/-- C2: with at least one configured factor, matching factor tables, and only
valid combination modes, `Embedding.forward` computes (before dropout) the
elementwise mean of the primary embedding stacked with the average-mode
factor embeddings, then adds every sum-mode factor embedding, and finally
concatenates every concatenate-mode factor embedding along the feature axis,
in configured order — averaging and summing before concatenation. -/
theorem claim_embedding_combination (cfg : EmbeddingConfig)
    (p : EmbeddingParams) (rng : Nat → Nat → Nat → Bool)
    (data : List (List (List Nat)))
    (hfac : cfg.factor_configs.getD [] ≠ [])
    (hlen : p.factor_tables.length = (cfg.factor_configs.getD []).length)
    (hmodes : ∀ fc ∈ cfg.factor_configs.getD [],
      fc.combine ∈ C.FACTORS_COMBINE_CHOICES) :
    Embedding.forward cfg p rng data =
      Except.ok (applyDropoutOpt cfg.dropout rng
        (specCombine (embLookup p.embedding (factorSlice data 0))
          (Embedding.factor_embedded cfg p data))) :=
  Embedding.forward_eq_spec cfg p rng data hfac
    (factor_embedded_modes cfg p data hlen hmodes)

/-- Witness for C2 at the all-modes example config. -/
theorem claim_embedding_combination_witness :
    Embedding.forward exCfg exP exRng exData =
      Except.ok (applyDropoutOpt exCfg.dropout exRng
        (specCombine (embLookup exP.embedding (factorSlice exData 0))
          (Embedding.factor_embedded exCfg exP exData))) :=
  claim_embedding_combination exCfg exP exRng exData (by decide) (by decide)
    (by decide)

/-- C5: `Embedding.forward` fails with a raised error exactly when some
configured factor has a combination-mode string outside the closed set
{sum, average, concatenate}; with all modes in that set the error branch is
never taken. -/
theorem claim_unknown_combine_error (cfg : EmbeddingConfig)
    (p : EmbeddingParams) (rng : Nat → Nat → Nat → Bool)
    (data : List (List (List Nat)))
    (hlen : p.factor_tables.length = (cfg.factor_configs.getD []).length) :
    (∃ e, Embedding.forward cfg p rng data = Except.error e) ↔
      ∃ fc ∈ cfg.factor_configs.getD [],
        fc.combine ∉ C.FACTORS_COMBINE_CHOICES := by
  by_cases hnf : cfg.num_factors > 1
  · rw [Embedding.forward]
    simp only [hnf, if_pos]
    rw [map_error_iff, map_error_iff, bucketFactors_error_iff,
      streams_bad_iff cfg p data hlen]
  · have hfc : cfg.factor_configs.getD [] = [] := by
      by_contra hne
      exact hnf ((num_factors_gt_one_iff cfg).mpr hne)
    rw [Embedding.forward]
    simp [hnf, hfc, Except.map]

/-- Witness for C5: at the example config all modes are valid, and indeed no
error is raised. -/
theorem claim_unknown_combine_error_witness :
    (∃ e, Embedding.forward exCfg exP exRng exData = Except.error e) ↔
      ∃ fc ∈ exCfg.factor_configs.getD [],
        fc.combine ∉ C.FACTORS_COMBINE_CHOICES :=
  claim_unknown_combine_error exCfg exP exRng exData (by decide)

/-- C3: for every valid input (well-formed tables, in-range ids, valid
combination modes, and sum/average factors matching the primary width), the
feature width of the tensor returned by `Embedding.forward` equals
`num_embed` plus the total width of the concatenated factor embeddings —
in particular exactly `num_embed` when no factor concatenates, since then
`concatWidth` is zero. -/
theorem claim_embedding_output_width (cfg : EmbeddingConfig)
    (p : EmbeddingParams) (rng : Nat → Nat → Nat → Bool)
    (data : List (List (List Nat)))
    (hlen : p.factor_tables.length = (cfg.factor_configs.getD []).length)
    (hmodes : ∀ fc ∈ cfg.factor_configs.getD [],
      fc.combine ∈ C.FACTORS_COMBINE_CHOICES)
    (hwfprim : tableWF p.embedding cfg.vocab_size cfg.num_embed)
    (hwffac : ∀ kfc ∈ (cfg.factor_configs.getD []).enum,
      (kfc : Nat × FactorConfig).2.share_embedding = false →
      tableWF (p.factor_tables.getD kfc.1 []) kfc.2.vocab_size kfc.2.num_embed)
    (hrange0 : idsInRange (factorSlice data 0) cfg.vocab_size)
    (hrange : ∀ kfc ∈ (cfg.factor_configs.getD []).enum,
      idsInRange (factorSlice data ((kfc : Nat × FactorConfig).1 + 1))
        (if kfc.2.share_embedding then cfg.vocab_size else kfc.2.vocab_size))
    (hwidtheq : ∀ fc ∈ cfg.factor_configs.getD [],
      fc.combine = C.FACTORS_COMBINE_SUM ∨
        fc.combine = C.FACTORS_COMBINE_AVERAGE →
      effectiveWidth cfg fc = cfg.num_embed) :
    ∃ out, Embedding.forward cfg p rng data = Except.ok out ∧
      HasWidth (cfg.num_embed + concatWidth cfg) out := by
  by_cases hfac : cfg.factor_configs.getD [] = []
  · have hnf : ¬cfg.num_factors > 1 := by
      rw [num_factors_gt_one_iff]
      simpa using hfac
    have hcw : concatWidth cfg = 0 := by simp [concatWidth, hfac]
    refine ⟨applyDropoutOpt cfg.dropout rng
      (embLookup p.embedding (factorSlice data 0)), ?_, ?_⟩
    · rw [Embedding.forward]
      simp [hnf, Except.map]
    · rw [hcw, Nat.add_zero]
      exact hasWidth_applyDropoutOpt (hasWidth_embLookup hwfprim hrange0)
  · have heq := Embedding.forward_eq_spec cfg p rng data hfac
      (factor_embedded_modes cfg p data hlen hmodes)
    refine ⟨_, heq, hasWidth_applyDropoutOpt ?_⟩
    have hF := factor_embedded_forall₂_width cfg p data hlen hwfprim hwffac hrange
    have hsum : ∀ t ∈ specSumBucket (Embedding.factor_embedded cfg p data),
        HasWidth cfg.num_embed t := by
      intro t ht
      rw [specSumBucket] at ht
      obtain ⟨s, hsf, rfl⟩ := List.mem_map.mp ht
      have hsf2 := List.mem_filter.mp hsf
      obtain ⟨fc, hfc, hR⟩ := forall₂_mem_right hF s hsf2.1
      have hcomb : fc.combine = C.FACTORS_COMBINE_SUM := by
        rw [← hR.1]
        simpa using hsf2.2
      rw [← hwidtheq fc hfc (Or.inl hcomb)]
      exact hR.2
    have havg : ∀ t ∈ specAverageBucket (Embedding.factor_embedded cfg p data),
        HasWidth cfg.num_embed t := by
      intro t ht
      rw [specAverageBucket] at ht
      obtain ⟨s, hsf, rfl⟩ := List.mem_map.mp ht
      have hsf2 := List.mem_filter.mp hsf
      obtain ⟨fc, hfc, hR⟩ := forall₂_mem_right hF s hsf2.1
      have hcomb : fc.combine = C.FACTORS_COMBINE_AVERAGE := by
        rw [← hR.1]
        simpa using hsf2.2
      rw [← hwidtheq fc hfc (Or.inr hcomb)]
      exact hR.2
    have hbase : HasWidth cfg.num_embed
        ((specSumBucket (Embedding.factor_embedded cfg p data)).foldl tenAdd
          (meanStack (embLookup p.embedding (factorSlice data 0))
            (specAverageBucket (Embedding.factor_embedded cfg p data)))) :=
      hasWidth_foldl_tenAdd
        (hasWidth_meanStack (hasWidth_embLookup hwfprim hrange0) havg) hsum
    have hFc := @forall₂_filter_transfer _ _ _
      (fun fc => fc.combine = C.FACTORS_COMBINE_CONCAT)
      (fun s => s.2 = C.FACTORS_COMBINE_CONCAT) _ _ hF
      (fun a b hR => by simp [hR.1])
    have hFc2 : List.Forall₂ (fun fc t => HasWidth (effectiveWidth cfg fc) t)
        ((cfg.factor_configs.getD []).filter
          (fun fc => fc.combine = C.FACTORS_COMBINE_CONCAT))
        (specConcatBucket (Embedding.factor_embedded cfg p data)) := by
      rw [specConcatBucket, List.forall₂_map_right_iff]
      exact hFc.imp (fun _ _ hR => hR.2)
    rw [specCombine]
    exact hasWidth_foldl_tenCat2 hFc2 cfg.num_embed _ hbase

/-- Witness for C3: the example config has concatenated widths 3 (own table)
and 2 (shared primary table), so the output width is 2 + 5. -/
theorem claim_embedding_output_width_witness :
    ∃ out, Embedding.forward exCfg exP exRng exData = Except.ok out ∧
      HasWidth (exCfg.num_embed + concatWidth exCfg) out :=
  claim_embedding_output_width exCfg exP exRng exData (by decide) (by decide)
    (by decide) (by decide) (by decide) (by decide) (by decide)

theorem outerShape_factor_embedded (cfg : EmbeddingConfig) (p : EmbeddingParams)
    (data : List (List (List Nat))) :
    ∀ s ∈ Embedding.factor_embedded cfg p data,
      outerShape s.1 = outerShape data := by
  intro s hs
  obtain ⟨k, hk, rfl⟩ := List.exists_of_mem_mapIdx hs
  exact (outerShape_embLookup _ _).trans (outerShape_factorSlice data (k + 1))

/-- C4: permuting the factor streams while keeping the concatenate-mode
streams fixed (which covers permuting the sum factors among themselves and
the average factors among themselves) leaves the output of
`Embedding.forward` unchanged; and the concatenate-mode factor embeddings
appear in the output's feature axis after the combined part, in configured
factor order. -/
theorem claim_factor_order (cfg cfg' : EmbeddingConfig) (p p' : EmbeddingParams)
    (rng : Nat → Nat → Nat → Bool) (data data' : List (List (List Nat)))
    (hprim : p'.embedding = p.embedding)
    (hslice : factorSlice data' 0 = factorSlice data 0)
    (hdrop : cfg'.dropout = cfg.dropout)
    (hfac : cfg.factor_configs.getD [] ≠ [])
    (hfac' : cfg'.factor_configs.getD [] ≠ [])
    (hlen : p.factor_tables.length = (cfg.factor_configs.getD []).length)
    (hmodes : ∀ fc ∈ cfg.factor_configs.getD [],
      fc.combine ∈ C.FACTORS_COMBINE_CHOICES)
    (hperm : (Embedding.factor_embedded cfg' p' data').Perm
      (Embedding.factor_embedded cfg p data))
    (hconcat : (Embedding.factor_embedded cfg' p' data').filter
        (fun s => s.2 = C.FACTORS_COMBINE_CONCAT)
      = (Embedding.factor_embedded cfg p data).filter
        (fun s => s.2 = C.FACTORS_COMBINE_CONCAT)) :
    Embedding.forward cfg' p' rng data' = Embedding.forward cfg p rng data ∧
    Embedding.forward cfg p rng data =
      Except.ok (applyDropoutOpt cfg.dropout rng
        (specCombine (embLookup p.embedding (factorSlice data 0))
          (Embedding.factor_embedded cfg p data))) ∧
    (∀ i j, entry3 (specCombine (embLookup p.embedding (factorSlice data 0))
          (Embedding.factor_embedded cfg p data)) i j =
      entry3 ((specSumBucket (Embedding.factor_embedded cfg p data)).foldl tenAdd
          (meanStack (embLookup p.embedding (factorSlice data 0))
            (specAverageBucket (Embedding.factor_embedded cfg p data)))) i j
        ++ ((specConcatBucket (Embedding.factor_embedded cfg p data)).map
            (fun t => entry3 t i j)).flatten) := by
  haveI : RightCommutative tenAdd := ⟨tenAdd_right_comm⟩
  have hvalid : ∀ s ∈ Embedding.factor_embedded cfg p data,
      s.2 ∈ C.FACTORS_COMBINE_CHOICES :=
    factor_embedded_modes cfg p data hlen hmodes
  have hvalidb : ∀ s ∈ Embedding.factor_embedded cfg' p' data',
      s.2 ∈ C.FACTORS_COMBINE_CHOICES :=
    fun s hs => hvalid s (hperm.subset hs)
  have heq := Embedding.forward_eq_spec cfg p rng data hfac hvalid
  have heqb := Embedding.forward_eq_spec cfg' p' rng data' hfac' hvalidb
  refine ⟨?_, heq, ?_⟩
  · rw [heq, heqb, hprim, hslice, hdrop]
    have hpermA : (specAverageBucket (Embedding.factor_embedded cfg' p' data')).Perm
        (specAverageBucket (Embedding.factor_embedded cfg p data)) :=
      (hperm.filter _).map _
    have hpermS : (specSumBucket (Embedding.factor_embedded cfg' p' data')).Perm
        (specSumBucket (Embedding.factor_embedded cfg p data)) :=
      (hperm.filter _).map _
    have hconcatEq : specConcatBucket (Embedding.factor_embedded cfg' p' data')
        = specConcatBucket (Embedding.factor_embedded cfg p data) := by
      rw [specConcatBucket, specConcatBucket, hconcat]
    have e1 : meanStack (embLookup p.embedding (factorSlice data 0))
          (specAverageBucket (Embedding.factor_embedded cfg' p' data'))
        = meanStack (embLookup p.embedding (factorSlice data 0))
          (specAverageBucket (Embedding.factor_embedded cfg p data)) := by
      rw [meanStack, meanStack, tenSum, tenSum, hpermA.length_eq,
        hpermA.foldl_eq (embLookup p.embedding (factorSlice data 0))]
    rw [specCombine, specCombine, hconcatEq, e1,
      hpermS.foldl_eq (meanStack (embLookup p.embedding (factorSlice data 0))
        (specAverageBucket (Embedding.factor_embedded cfg p data)))]
  · intro i j
    have hstreams := outerShape_factor_embedded cfg p data
    have hprimShape : outerShape (embLookup p.embedding (factorSlice data 0))
        = outerShape data :=
      (outerShape_embLookup _ _).trans (outerShape_factorSlice data 0)
    have havgShape : ∀ t ∈ specAverageBucket (Embedding.factor_embedded cfg p data),
        outerShape t = outerShape data := by
      intro t ht
      rw [specAverageBucket] at ht
      obtain ⟨s, hsf, rfl⟩ := List.mem_map.mp ht
      exact hstreams s (List.mem_of_mem_filter hsf)
    have hsumShape : ∀ t ∈ specSumBucket (Embedding.factor_embedded cfg p data),
        outerShape t = outerShape data := by
      intro t ht
      rw [specSumBucket] at ht
      obtain ⟨s, hsf, rfl⟩ := List.mem_map.mp ht
      exact hstreams s (List.mem_of_mem_filter hsf)
    have hconcShape : ∀ t ∈ specConcatBucket (Embedding.factor_embedded cfg p data),
        outerShape t = outerShape data := by
      intro t ht
      rw [specConcatBucket] at ht
      obtain ⟨s, hsf, rfl⟩ := List.mem_map.mp ht
      exact hstreams s (List.mem_of_mem_filter hsf)
    have hbaseShape : outerShape
        ((specSumBucket (Embedding.factor_embedded cfg p data)).foldl tenAdd
          (meanStack (embLookup p.embedding (factorSlice data 0))
            (specAverageBucket (Embedding.factor_embedded cfg p data))))
        = outerShape data :=
      outerShape_foldl_tenAdd (outerShape_meanStack hprimShape havgShape) hsumShape
    rw [specCombine]
    exact entry3_foldl_tenCat2
      (fun t ht => (hconcShape t ht).trans hbaseShape.symm) i j

/-- Witness for C4: exchanging the two sum-mode factors (tables and data
channels) of the two-sum-one-concat example leaves the forward output
unchanged, and the entry at (0,0) decomposes as combined part followed by
the concatenated factors in configured order. -/
theorem claim_factor_order_witness :
    Embedding.forward exCfg4 exP4b exRng exData4b =
      Embedding.forward exCfg4 exP4 exRng exData4 ∧
    entry3 (specCombine (embLookup exP4.embedding (factorSlice exData4 0))
        (Embedding.factor_embedded exCfg4 exP4 exData4)) 0 0 =
      entry3 ((specSumBucket (Embedding.factor_embedded exCfg4 exP4 exData4)).foldl
          tenAdd (meanStack (embLookup exP4.embedding (factorSlice exData4 0))
            (specAverageBucket (Embedding.factor_embedded exCfg4 exP4 exData4)))) 0 0
        ++ ((specConcatBucket (Embedding.factor_embedded exCfg4 exP4 exData4)).map
            (fun t => entry3 t 0 0)).flatten :=
  ⟨(claim_factor_order exCfg4 exCfg4 exP4 exP4b exRng exData4 exData4b
      (by decide) (by decide) (by decide) (by decide) (by decide) (by decide)
      (by decide) (by decide) (by decide)).1,
   (claim_factor_order exCfg4 exCfg4 exP4 exP4b exRng exData4 exData4b
      (by decide) (by decide) (by decide) (by decide) (by decide) (by decide)
      (by decide) (by decide) (by decide)).2.2 0 0⟩

/-- C10: a factor configured with `share_embedding = True` looks up the
primary embedding table, so its embedded vectors have width `num_embed` and
draw from the primary vocabulary, regardless of the factor's own configured
`vocab_size` and `num_embed`; its effective concatenation widening is the
primary `num_embed`. -/
theorem claim_shared_factor_uses_primary (cfg : EmbeddingConfig)
    (p : EmbeddingParams) (data : List (List (List Nat))) (k : Nat)
    (fc : FactorConfig)
    (hlen : p.factor_tables.length = (cfg.factor_configs.getD []).length)
    (hk : (cfg.factor_configs.getD [])[k]? = some fc)
    (hsh : fc.share_embedding = true)
    (hwfprim : tableWF p.embedding cfg.vocab_size cfg.num_embed)
    (hrange : idsInRange (factorSlice data (k + 1)) cfg.vocab_size) :
    (Embedding.factor_embeds cfg p)[k]? = some p.embedding ∧
    (Embedding.factor_embedded cfg p data)[k]? =
      some (embLookup p.embedding (factorSlice data (k + 1)), fc.combine) ∧
    HasWidth cfg.num_embed (embLookup p.embedding (factorSlice data (k + 1))) ∧
    effectiveWidth cfg fc = cfg.num_embed := by
  obtain ⟨hklt, hkeq⟩ := List.getElem?_eq_some_iff.mp hk
  have hk2 : k < p.factor_tables.length := by rw [hlen]; exact hklt
  have hkz : k < (List.zip (cfg.factor_configs.getD []) p.factor_tables).length := by
    rw [List.length_zip, hlen, min_self]
    exact hklt
  refine ⟨?_, ?_, hasWidth_embLookup hwfprim hrange, by simp [effectiveWidth, hsh]⟩
  · have hkf : k < (Embedding.factor_embeds cfg p).length := by
      rw [Embedding.factor_embeds, List.length_map]
      exact hkz
    rw [List.getElem?_eq_getElem hkf]
    rw [show (Embedding.factor_embeds cfg p)[k] =
        (Embedding.factor_embeds cfg p).get ⟨k, hkf⟩ from rfl]
    simp only [Embedding.factor_embeds, List.get_eq_getElem, List.getElem_map,
      List.getElem_zip]
    rw [show (cfg.factor_configs.getD [])[k] = fc from hkeq, hsh]
    simp
  · have hks : k < (Embedding.factor_embedded cfg p data).length := by
      rw [factor_embedded_length cfg p data hlen]
      exact hklt
    rw [List.getElem?_eq_getElem hks]
    rw [show (Embedding.factor_embedded cfg p data)[k] =
        (Embedding.factor_embedded cfg p data).get ⟨k, hks⟩ from rfl]
    rw [factor_embedded_get cfg p data k hklt hks hk2]
    rw [show (cfg.factor_configs.getD []).get ⟨k, hklt⟩ = fc from hkeq, hsh]
    simp

/-- Witness for C10 at the shared-table factor of the example config: its
configured width is 7, yet it embeds with the primary table of width 2. -/
theorem claim_shared_factor_uses_primary_witness :
    (Embedding.factor_embeds exCfg exP)[3]? = some exP.embedding ∧
    (Embedding.factor_embedded exCfg exP exData)[3]? =
      some (embLookup exP.embedding (factorSlice exData 4), exFcShared.combine) ∧
    HasWidth exCfg.num_embed (embLookup exP.embedding (factorSlice exData 4)) ∧
    effectiveWidth exCfg exFcShared = exCfg.num_embed :=
  claim_shared_factor_uses_primary exCfg exP exData 3 exFcShared (by decide)
    (by decide) (by decide) (by decide) (by decide)

end Sockeye
